import Mathlib

/-!
Verification of the m3ugen directory-to-playlist pipeline.

Shallow embedding of `src/main.rs`: for each child folder of a root
directory, the program creates a concealed subfolder (`"." ++ childName`),
creates/truncates a playlist file (`childName ++ ".m3u"`), and for every
entry of the child whose full path ends with `chd`, `cue` or `bin` it
writes a playlist line and then attempts to rename the entry into the
concealed subfolder.

External outcomes that the filesystem alone does not determine
(permission errors on `create_dir`, `File::create`, `read_dir`,
`rename`, and the result of the re-check of the root path) are supplied
by an environment record `ChildEnv`; the structured filesystem state of
one child is a list of `TopEntry`.
-/

namespace M3ugen

/-- Directory separator chosen by `env::consts::OS` in the source:
`"\\"` on Windows, `"/"` otherwise. -/
def path_sep (os : String) : String := if os = "windows" then "\\" else "/"

/-- The separator as a single character. -/
def sep_char (os : String) : Char := if os = "windows" then '\\' else '/'

/-- `build_path_from_parts` of the source: push every part, and push the
separator after every part except the last (`count != total`). -/
def build_path_from_parts (os : String) : List String → String
  | [] => ""
  | [p] => p
  | p :: q :: rest => p ++ path_sep os ++ build_path_from_parts os (q :: rest)

/-- `get_path_dir_name` of the source: split on the separator and take the
last chunk (`split(...).last().unwrap()`; `splitOn` never returns `[]`, so
the default of `getD` is unreachable). -/
def get_path_dir_name (os path : String) : String :=
  ((path.splitOn (path_sep os)).getLast?).getD ""

/-- Rust `str::ends_with pat`: `pat` is a literal trailing substring,
modelled on the character list of the string. -/
def rust_ends_with (s pat : String) : Bool := List.isSuffixOf pat.data s.data

/-- The extension list `["chd", "cue", "bin"]` of the source. -/
def media_exts : List String := ["chd", "cue", "bin"]

/-- The classifier of the source (lines 116–121): `true` iff some
extension is a literal trailing substring of the tested string.  The
source applies it to the full path `curr_file`. -/
def is_media_file (s : String) : Bool := media_exts.any (fun ext => rust_ends_with s ext)

/-- One immediate entry of a child folder: a subdirectory with its own
entries, or a file with its list of text lines. -/
inductive TopEntry where
  | subdir : String → List TopEntry → TopEntry
  | file : String → List String → TopEntry

/-- Name of an entry. -/
def entryName : TopEntry → String
  | .subdir n _ => n
  | .file n _ => n

/-- Is this entry a subdirectory named `n`? -/
def isDirNamed (n : String) : TopEntry → Bool
  | .subdir m _ => m = n
  | .file _ _ => false

/-- Does the list contain a subdirectory named `n`? -/
def hasDir (n : String) (es : List TopEntry) : Bool := es.any (isDirNamed n)

/-- Does the list contain any entry (file or directory) named `n`? -/
def existsNamed (n : String) (es : List TopEntry) : Bool :=
  es.any (fun e => entryName e = n)

/-- Is this entry a file? -/
def isFileNode : TopEntry → Bool
  | .file _ _ => true
  | .subdir _ _ => false

/-- Remove the first entry named `n` (the effect of a successful rename on
the source directory). -/
def remove_entry (n : String) : List TopEntry → List TopEntry
  | [] => []
  | e :: es => if entryName e = n then es else e :: remove_entry n es

/-- First entry named `n`, if any. -/
def find_entry (n : String) (es : List TopEntry) : Option TopEntry :=
  es.find? (fun e => entryName e = n)

/-- Put entry `x` inside this entry when it is the subdirectory named `d`
(rename target semantics: an entry of the same name inside `d` is
overwritten). -/
def add_into_entry (d : String) (x : TopEntry) : TopEntry → TopEntry
  | .subdir m cs =>
      if m = d then .subdir m (cs.filter (fun y => entryName y != entryName x) ++ [x])
      else .subdir m cs
  | e => e

/-- Put entry `x` inside the subdirectory named `d`. -/
def add_into_dir (d : String) (x : TopEntry) (es : List TopEntry) : List TopEntry :=
  es.map (add_into_entry d x)

/-- `fs::create_dir` of line 91, with its result discarded by the source
(`let _ = ...`): if an entry of that name exists the `AlreadyExists`
error is swallowed; any other failure (`mkdirFail`) is swallowed too;
on success a fresh empty subdirectory is created. -/
def create_dir_model (hidden : String) (mkdirFail : Option String)
    (es : List TopEntry) : List TopEntry :=
  if existsNamed hidden es then es
  else match mkdirFail with
    | some _ => es
    | none => es ++ [.subdir hidden []]

/-- Set the content of one entry when it is the file named `n`. -/
def set_file_entry (n : String) (ls : List String) : TopEntry → TopEntry
  | .file m c => if m = n then .file m ls else .file m c
  | e => e

/-- Set the content of the file named `n` to `ls` (in place). -/
def set_file_lines (n : String) (ls : List String) (es : List TopEntry) : List TopEntry :=
  es.map (set_file_entry n ls)

/-- `fs::File::create` of line 99: truncate the file if it exists,
create it (appended in enumeration order) otherwise. -/
def create_file_model (n : String) (es : List TopEntry) : List TopEntry :=
  if existsNamed n es then set_file_lines n [] es else es ++ [.file n []]

/-- Per-file move failure notice printed by lines 141–145: the underlying
cause and the offending source and destination paths. -/
structure MoveError where
  cause : String
  src : String
  dest : String
deriving DecidableEq

/-- Environment of one child: outcomes of the fallible operations that the
filesystem state of the child does not itself determine.
`rootReCheck` (line 88) and `subDirCheck` (line 107) are the results of
the two `verify_path` calls whose results the source discards. -/
structure ChildEnv where
  rootReCheck : Except String Bool
  subDirCheck : Except String Bool
  mkdirFail : Option String
  createPlaylist : Option String
  readDirFail : Option String
  renameFail : String → Option String

/-- An all-success environment. -/
def benignEnv : ChildEnv :=
  ⟨.ok true, .ok true, none, none, none, fun _ => none⟩

/-- State carried through the per-file loop of lines 111–147. -/
structure OrgState where
  entries : List TopEntry
  lines : List String
  errors : List MoveError
  moves : List (String × String)

/-- Full path of a file at the top of the child (`curr_file`). -/
def move_src (os parent curr n : String) : String :=
  build_path_from_parts os [parent, curr, n]

/-- Destination path inside the concealed subfolder (`new_file`). -/
def move_dest (os parent curr hidden n : String) : String :=
  build_path_from_parts os [parent, curr, hidden, n]

/-- The playlist line `compose([hidden_name, curr_file_name])`. -/
def m3u_line (os hidden n : String) : String :=
  build_path_from_parts os [hidden, n]

/-- `fs::rename(curr_file, new_file)` of line 139, within one child:
fails when the concealed directory does not exist, when the source is the
concealed directory itself, or when the environment injects a failure;
otherwise the entry moves into the concealed directory. -/
def rename_file (env : ChildEnv) (hidden n : String) (es : List TopEntry) :
    Except String (List TopEntry) :=
  if hasDir hidden es = false then .error "NotFound"
  else if n = hidden then .error "InvalidInput"
  else match env.renameFail n with
    | some c => .error c
    | none => match find_entry n es with
      | none => .error "NotFound"
      | some e => .ok (add_into_dir hidden e (remove_entry n es))

/-- Body of the per-file loop (lines 111–147): skip non-media entries;
otherwise write the playlist line first, then attempt the move, recording
a `MoveError` and continuing on failure. -/
def process_file (os parent curr hidden : String) (env : ChildEnv)
    (s : OrgState) (n : String) : OrgState :=
  if is_media_file (move_src os parent curr n) = false then s
  else
    let s1 : OrgState := { s with lines := s.lines ++ [m3u_line os hidden n] }
    match rename_file env hidden n s1.entries with
    | .ok es' =>
        { s1 with entries := es',
                  moves := s1.moves ++ [(move_src os parent curr n, move_dest os parent curr hidden n)] }
    | .error c =>
        { s1 with errors := s1.errors ++ [⟨c, move_src os parent curr n, move_dest os parent curr hidden n⟩] }

/-- Result of processing one child; `panic = some msg` models an
`unwrap()` panic aborting the process, with `entries` the state the
child was left in. -/
structure OrganizeOutcome where
  entries : List TopEntry
  lines : List String
  errors : List MoveError
  moves : List (String × String)
  panic : Option String

/-- The body of the `for_each` closure of lines 75–148, for one child.
Order of effects follows the source: discarded root re-check (88),
`create_dir` with its result discarded (91), `File::create(...).unwrap()`
(99–104, a failure panics), discarded sub-dir check (107),
`read_dir(child).unwrap()` (108, a failure panics), then the per-file
loop over the enumeration snapshot. -/
def organize_child (os parent : String) (env : ChildEnv) (curr_name : String)
    (entries : List TopEntry) : OrganizeOutcome :=
  let hidden := "." ++ curr_name
  let es1 := create_dir_model hidden env.mkdirFail entries
  let file_name := curr_name ++ ".m3u"
  match env.createPlaylist with
  | some c => ⟨es1, [], [], [], some c⟩
  | none =>
    if hasDir file_name es1 then ⟨es1, [], [], [], some "IsADirectory"⟩
    else
      let es2 := create_file_model file_name es1
      match env.readDirFail with
      | some c => ⟨es2, [], [], [], some c⟩
      | none =>
        let s := (es2.map entryName).foldl (process_file os parent curr_name hidden env)
          ⟨es2, [], [], []⟩
        ⟨set_file_lines file_name s.lines s.entries, s.lines, s.errors, s.moves, none⟩

/-- Result of a whole run: error from `read_dir(root)?`, final state of
every child, per-child reports in processing order, and the panic that
aborted the run, if any. -/
structure RunOutcome where
  rootError : Option String
  children : List (String × List TopEntry)
  reports : List (String × OrganizeOutcome)
  panic : Option String

/-- Sequential walk of `for_each`: a panic inside one child's closure
aborts the whole run, leaving later children untouched and unreported. -/
def run_go (os root : String) (envs : String → ChildEnv) :
    List (String × List TopEntry) → List (String × List TopEntry) →
    List (String × OrganizeOutcome) → RunOutcome
  | [], done, reps => ⟨none, done, reps, none⟩
  | (n, es) :: rest, done, reps =>
    let r := organize_child os root (envs n) n es
    match r.panic with
    | some c => ⟨none, done ++ [(n, r.entries)] ++ rest, reps, some c⟩
    | none => run_go os root envs rest (done ++ [(n, r.entries)]) (reps ++ [(n, r)])

/-- `main` (lines 60–149): the `verify_path(root)` result is discarded,
then `fs::read_dir(root)?` propagates a `NotFound` error before any write
when the root does not exist; otherwise every child is visited in order. -/
def run (os root : String) (rootExists : Bool)
    (children : List (String × List TopEntry)) (envs : String → ChildEnv) : RunOutcome :=
  if rootExists then run_go os root envs children [] []
  else ⟨some "NotFound", children, [], none⟩

/-! Basic lemmas about the path composer. -/

/-- The separator string is the one-character string of `sep_char`. -/
theorem path_sep_data (os : String) : (path_sep os).data = [sep_char os] := by
  by_cases h : os = "windows" <;> simp [path_sep, sep_char, h]

/-- Characters of an appended string. -/
theorem string_append_data (a b : String) : (a ++ b).data = a.data ++ b.data := rfl

/-! Lemmas about the per-file loop. -/

/-- A non-media entry is skipped. -/
theorem process_file_of_not_media (os parent curr hidden : String) (env : ChildEnv)
    (s : OrgState) (n : String) (h : is_media_file (move_src os parent curr n) = false) :
    process_file os parent curr hidden env s n = s := by
  simp [process_file, h]

/-- The playlist line is appended for every media entry, whatever the
outcome of the move. -/
theorem process_file_lines_eq (os parent curr hidden : String) (env : ChildEnv)
    (s : OrgState) (n : String) :
    (process_file os parent curr hidden env s n).lines =
      s.lines ++ (if is_media_file (move_src os parent curr n) then [m3u_line os hidden n] else []) := by
  cases hx : is_media_file (move_src os parent curr n) with
  | false => simp [process_file, hx]
  | true =>
      simp only [process_file, hx]
      cases hr : rename_file env hidden n s.entries <;> simp [hr]

/-- Folding the loop appends exactly one line per media entry of the
snapshot, in snapshot order. -/
theorem foldl_lines (os parent curr hidden : String) (env : ChildEnv) :
    ∀ (ns : List String) (s : OrgState),
      (ns.foldl (process_file os parent curr hidden env) s).lines =
        s.lines ++ (ns.filter (fun n => is_media_file (move_src os parent curr n))).map
          (m3u_line os hidden)
  | [], s => by simp
  | n :: ns, s => by
      rw [List.foldl_cons, foldl_lines os parent curr hidden env ns]
      rw [process_file_lines_eq]
      by_cases h : is_media_file (move_src os parent curr n) = true <;>
        simp [h, List.filter_cons]

/-- One loop step never removes a recorded move. -/
theorem process_file_moves_mono (os parent curr hidden : String) (env : ChildEnv)
    (s : OrgState) (n : String) :
    ∃ t, (process_file os parent curr hidden env s n).moves = s.moves ++ t := by
  cases hx : is_media_file (move_src os parent curr n) with
  | false => exact ⟨[], by simp [process_file, hx]⟩
  | true =>
      simp only [process_file, hx]
      cases hr : rename_file env hidden n s.entries with
      | ok es' => exact ⟨[(move_src os parent curr n, move_dest os parent curr hidden n)], by simp [hr]⟩
      | error c => exact ⟨[], by simp [hr]⟩

/-- The whole loop never removes a recorded move: no rollback. -/
theorem foldl_moves_mono (os parent curr hidden : String) (env : ChildEnv) :
    ∀ (ns : List String) (s : OrgState),
      ∃ t, (ns.foldl (process_file os parent curr hidden env) s).moves = s.moves ++ t
  | [], s => ⟨[], by simp⟩
  | n :: ns, s => by
      obtain ⟨t1, h1⟩ := process_file_moves_mono os parent curr hidden env s n
      obtain ⟨t2, h2⟩ := foldl_moves_mono os parent curr hidden env ns
        (process_file os parent curr hidden env s n)
      exact ⟨t1 ++ t2, by rw [List.foldl_cons, h2, h1, List.append_assoc]⟩

/-- A snapshot with no media entry leaves the loop state unchanged. -/
theorem foldl_of_no_media (os parent curr hidden : String) (env : ChildEnv) :
    ∀ (ns : List String) (s : OrgState),
      (∀ n ∈ ns, is_media_file (move_src os parent curr n) = false) →
      ns.foldl (process_file os parent curr hidden env) s = s
  | [], s, _ => rfl
  | n :: ns, s, h => by
      rw [List.foldl_cons, process_file_of_not_media os parent curr hidden env s n
        (h n (List.mem_cons_self n ns))]
      exact foldl_of_no_media os parent curr hidden env ns s
        (fun m hm => h m (List.mem_cons_of_mem n hm))

/-- When the concealed directory is absent, a move of a media entry fails
with `NotFound`: only the playlist line and the error notice are added. -/
theorem process_file_no_dir (os parent curr hidden : String) (env : ChildEnv)
    (s : OrgState) (n : String) (hd : hasDir hidden s.entries = false)
    (hm : is_media_file (move_src os parent curr n) = true) :
    process_file os parent curr hidden env s n =
      { s with lines := s.lines ++ [m3u_line os hidden n],
               errors := s.errors ++
                 [⟨"NotFound", move_src os parent curr n, move_dest os parent curr hidden n⟩] } := by
  simp [process_file, hm, rename_file, hd]

/-- With the concealed directory absent throughout, the loop writes one
line and records one `NotFound` error per media entry and moves nothing. -/
theorem foldl_no_dir (os parent curr hidden : String) (env : ChildEnv) :
    ∀ (ns : List String) (s : OrgState), hasDir hidden s.entries = false →
      ns.foldl (process_file os parent curr hidden env) s =
        ⟨s.entries,
         s.lines ++ (ns.filter (fun n => is_media_file (move_src os parent curr n))).map
           (m3u_line os hidden),
         s.errors ++ (ns.filter (fun n => is_media_file (move_src os parent curr n))).map
           (fun n => ⟨"NotFound", move_src os parent curr n, move_dest os parent curr hidden n⟩),
         s.moves⟩
  | [], s, _ => by simp
  | n :: ns, s, hd => by
      rw [List.foldl_cons]
      cases hm : is_media_file (move_src os parent curr n) with
      | false =>
          rw [process_file_of_not_media os parent curr hidden env s n hm,
            foldl_no_dir os parent curr hidden env ns s hd]
          simp [List.filter_cons, hm]
      | true =>
          rw [process_file_no_dir os parent curr hidden env s n hd hm,
            foldl_no_dir os parent curr hidden env ns
              ⟨s.entries, s.lines ++ [m3u_line os hidden n],
               s.errors ++
                 [MoveError.mk "NotFound" (move_src os parent curr n)
                   (move_dest os parent curr hidden n)],
               s.moves⟩ hd]
          simp [List.filter_cons, hm]

/-- The tail-recursive worker of `String.intercalate` agrees with the
source's composer. -/
theorem intercalate_go_eq_build (os : String) :
    ∀ (as : List String) (a : String),
      String.intercalate.go a (path_sep os) as = build_path_from_parts os (a :: as)
  | [], _ => rfl
  | b :: as, a => by
      rw [String.intercalate.go, intercalate_go_eq_build os as (a ++ path_sep os ++ b)]
      cases as <;> simp [build_path_from_parts, String.append_assoc]

/-- Claim C10: the path composer is total on the edge inputs the spec
leaves unspecified: the empty sequence gives the empty string, and a
single segment is returned unchanged, with no separator appended. -/
theorem C10_composer_edge_cases :
    (∀ os : String, build_path_from_parts os [] = "")
    ∧ (∀ (os s : String), build_path_from_parts os [s] = s) :=
  ⟨fun _ => rfl, fun _ _ => rfl⟩

/-- Claim C6: the media-file classifier returns true iff the name ends
with `"chd"`, `"cue"` or `"bin"` as a literal trailing substring of its
character sequence; in particular `"archive.bin"` and the pathological
`"foobin"` match while `"readme.txt"` and `"cover.jpg"` do not. -/
theorem C6_classifier_suffix :
    (∀ name : String, (is_media_file name = true ↔
      ("chd".data <:+ name.data ∨ "cue".data <:+ name.data ∨ "bin".data <:+ name.data)))
    ∧ is_media_file "archive.bin" = true ∧ is_media_file "foobin" = true
    ∧ is_media_file "readme.txt" = false ∧ is_media_file "cover.jpg" = false := by
  refine ⟨fun name => ?_, by decide, by decide, by decide, by decide⟩
  simp [is_media_file, media_exts, rust_ends_with, List.isSuffixOf_iff_suffix]

/-- Claim C7 as stated is false: segments are arbitrary non-empty strings,
and a segment that itself ends with the separator makes the composed path
end with a separator (and hold two separators for two segments): witness
`compose(["a", "b/"]) = "a/b/"` on a non-Windows host. -/
theorem C7_counterexample :
    ("a" ≠ "" ∧ "b/" ≠ "")
    ∧ build_path_from_parts "linux" ["a", "b/"] = "a/b/"
    ∧ (build_path_from_parts "linux" ["a", "b/"]).data.count (sep_char "linux") = 2
    ∧ (build_path_from_parts "linux" ["a", "b/"]).data.getLast? = some (sep_char "linux") := by
  refine ⟨⟨by decide, by decide⟩, rfl, by decide, by decide⟩

/-- Claim C7, amended: the composer joins the segments with the host
platform's separator exactly as `String.intercalate` does, and — provided
the two segments are non-empty and themselves free of the separator
character — the result contains exactly one separator and none at the
end. -/
theorem C7_amended_compose (os : String) :
    (∀ parts : List String,
        build_path_from_parts os parts = String.intercalate (path_sep os) parts)
    ∧ ∀ a b : String, a ≠ "" → b ≠ "" →
        sep_char os ∉ a.data → sep_char os ∉ b.data →
        (build_path_from_parts os [a, b]).data.count (sep_char os) = 1
        ∧ (build_path_from_parts os [a, b]).data.getLast? ≠ some (sep_char os) := by
  constructor
  · intro parts
    cases parts with
    | nil => rfl
    | cons a as => exact (intercalate_go_eq_build os as a).symm
  · intro a b _ hb ha2 hb2
    have hdata : (build_path_from_parts os [a, b]).data = a.data ++ [sep_char os] ++ b.data := by
      show (a ++ path_sep os ++ b).data = _
      rw [string_append_data, string_append_data, path_sep_data]
    have hbne : b.data ≠ [] := by
      intro h
      exact hb (String.ext (h.trans rfl))
    constructor
    · rw [hdata, List.count_append, List.count_append,
        List.count_eq_zero.mpr ha2, List.count_eq_zero.mpr hb2]
      simp
    · rw [hdata, List.getLast?_append_of_ne_nil _ hbne]
      intro h
      exact hb2 (List.mem_of_getLast?_eq_some h)

/-- Witness for C7 on separator-free segments: one separator, none at
the end. -/
theorem C7_witness :
    (build_path_from_parts "linux" ["GameX", "disc1.cue"]).data.count (sep_char "linux") = 1
    ∧ (build_path_from_parts "linux" ["GameX", "disc1.cue"]).data.getLast?
        ≠ some (sep_char "linux") :=
  (C7_amended_compose "linux").2 "GameX" "disc1.cue" (by decide) (by decide)
    (by decide) (by decide)

/-- Claim C9: the mid-run re-verification of the root path (line 88) has
no effect on behavior; runs differing only in that check's outcome are
identical, because the result is discarded. -/
theorem C9_root_recheck_ignored (os parent : String) (env : ChildEnv)
    (x y : Except String Bool) (c : String) (es : List TopEntry) :
    organize_child os parent { env with rootReCheck := x } c es
      = organize_child os parent { env with rootReCheck := y } c es := rfl

/-- Claim C4: when the root does not exist, the run fails with a
root-not-found condition before any filesystem write: every child's state
is unchanged and no child is processed. -/
theorem C4_root_not_found (os root : String)
    (children : List (String × List TopEntry)) (envs : String → ChildEnv) :
    run os root false children envs = ⟨some "NotFound", children, [], none⟩ := rfl

/-- Claim C8: when moving one media file fails, a per-file error carrying
the underlying cause and the offending source and destination paths is
recorded, the loop continues with the next file of the same child, and
recorded moves are never undone (no rollback). -/
theorem C8_move_failure_isolated (os parent curr hidden : String) (env : ChildEnv)
    (s : OrgState) (n cause : String)
    (hm : is_media_file (move_src os parent curr n) = true)
    (hd : hasDir hidden s.entries = true)
    (hn : n ≠ hidden)
    (hf : env.renameFail n = some cause) :
    process_file os parent curr hidden env s n =
      { s with lines := s.lines ++ [m3u_line os hidden n],
               errors := s.errors ++
                 [⟨cause, move_src os parent curr n, move_dest os parent curr hidden n⟩] }
    ∧ (∀ rest : List String,
        List.foldl (process_file os parent curr hidden env) s (n :: rest)
          = List.foldl (process_file os parent curr hidden env)
              (process_file os parent curr hidden env s n) rest)
    ∧ (∀ (ns : List String) (s' : OrgState),
        ∃ t, (ns.foldl (process_file os parent curr hidden env) s').moves = s'.moves ++ t) := by
  refine ⟨?_, fun rest => List.foldl_cons _ _,
    fun ns s' => foldl_moves_mono os parent curr hidden env ns s'⟩
  simp [process_file, hm, rename_file, hd, hn, hf]

/-- Witness for C8 at a concrete child: the error notice carries the
injected cause and the composed source and destination paths. -/
theorem C8_witness :
    (process_file "linux" "p" "G" ".G"
        { benignEnv with renameFail := fun _ => some "Denied" }
        ⟨[.subdir ".G" [], .file "a.cue" []], [], [], []⟩ "a.cue").errors
      = [⟨"Denied", "p/G/a.cue", "p/G/.G/a.cue"⟩] := by
  have h := C8_move_failure_isolated "linux" "p" "G" ".G"
    { benignEnv with renameFail := fun _ => some "Denied" }
    ⟨[.subdir ".G" [], .file "a.cue" []], [], [], []⟩ "a.cue" "Denied"
    (by decide) (by decide) (by decide) rfl
  rw [h.1]
  rfl

/-- Claim C1 as stated is false: the source writes the playlist line
before attempting the move (lines 132–139), so a media file whose move
fails is still listed.  Concretely, with one media file whose rename
fails, the playlist holds its line while no move happened. -/
theorem C1_counterexample :
    organize_child "linux" "root"
        { benignEnv with renameFail := fun _ => some "PermissionDenied" } "GameX"
        [.file "GameX.cue" []]
      = ⟨[.file "GameX.cue" [], .subdir ".GameX" [], .file "GameX.m3u" [".GameX/GameX.cue"]],
         [".GameX/GameX.cue"],
         [⟨"PermissionDenied", "root/GameX/GameX.cue", "root/GameX/.GameX/GameX.cue"⟩],
         [], none⟩ := rfl

/-- Lines produced by a run that does not panic: exactly one line per
media entry of the enumeration snapshot, in snapshot order. -/
theorem organize_child_no_panic_lines (os parent c : String) (env : ChildEnv)
    (es : List TopEntry)
    (hcp : env.createPlaylist = none) (hrd : env.readDirFail = none)
    (hfd : hasDir (c ++ ".m3u") (create_dir_model ("." ++ c) env.mkdirFail es) = false) :
    (organize_child os parent env c es).panic = none
    ∧ (organize_child os parent env c es).lines =
        (((create_file_model (c ++ ".m3u") (create_dir_model ("." ++ c) env.mkdirFail es)).map
            entryName).filter (fun n => is_media_file (move_src os parent c n))).map
          (m3u_line os ("." ++ c)) := by
  constructor
  · simp [organize_child, hcp, hrd, hfd]
  · simp only [organize_child, hcp, hrd, hfd, Bool.false_eq_true, if_false]
    rw [foldl_lines]
    simp

/-- Claim C1, amended: for a child run that does not panic, the playlist
contains exactly one line per media file encountered in the enumeration
snapshot, in the order encountered, regardless of whether the file's move
succeeded: the playlist lines do not depend on the move outcomes at all. -/
theorem C1_amended_playlist (os parent c : String) (env : ChildEnv)
    (es : List TopEntry)
    (hcp : env.createPlaylist = none) (hrd : env.readDirFail = none)
    (hfd : hasDir (c ++ ".m3u") (create_dir_model ("." ++ c) env.mkdirFail es) = false) :
    (organize_child os parent env c es).panic = none
    ∧ (organize_child os parent env c es).lines =
        (((create_file_model (c ++ ".m3u") (create_dir_model ("." ++ c) env.mkdirFail es)).map
            entryName).filter (fun n => is_media_file (move_src os parent c n))).map
          (m3u_line os ("." ++ c))
    ∧ ∀ f : String → Option String,
        (organize_child os parent { env with renameFail := f } c es).lines
          = (organize_child os parent env c es).lines := by
  obtain ⟨h1, h2⟩ := organize_child_no_panic_lines os parent c env es hcp hrd hfd
  refine ⟨h1, h2, fun f => ?_⟩
  have h3 := organize_child_no_panic_lines os parent c { env with renameFail := f } es hcp hrd hfd
  rw [h3.2, h2]

/-- Witness for C1 at a concrete child whose single move fails: the
playlist still lists the file. -/
theorem C1_witness :
    (organize_child "linux" "root"
        { benignEnv with renameFail := fun _ => some "CrossDevice" } "GameX"
        [.file "GameX.cue" [], .file "cover.jpg" []]).lines
      = [".GameX/GameX.cue"] := by
  have h := C1_amended_playlist "linux" "root" "GameX"
    { benignEnv with renameFail := fun _ => some "CrossDevice" }
    [.file "GameX.cue" [], .file "cover.jpg" []] rfl rfl (by decide)
  rw [h.2.1]
  rfl

/-- A directory named `d` is in particular an entry named `d`. -/
theorem entryName_of_isDirNamed {d : String} {e : TopEntry} (h : isDirNamed d e = true) :
    entryName e = d := by
  cases e with
  | subdir m cs => simpa [isDirNamed, entryName] using h
  | file m c => simp [isDirNamed] at h

/-- If no entry is named `d`, no directory is named `d`. -/
theorem hasDir_false_of_existsNamed_false {d : String} :
    ∀ es : List TopEntry, existsNamed d es = false → hasDir d es = false
  | [], _ => rfl
  | e :: es, h => by
      simp only [existsNamed, List.any_cons, Bool.or_eq_false_iff] at h
      simp only [hasDir, List.any_cons, Bool.or_eq_false_iff]
      refine ⟨?_, hasDir_false_of_existsNamed_false es h.2⟩
      cases hx : isDirNamed d e with
      | false => rfl
      | true =>
          have := entryName_of_isDirNamed hx
          simp [this] at h

/-- Truncating a file's content does not change what kind of entry it is. -/
theorem isDirNamed_set_file_entry (d n : String) (ls : List String) (e : TopEntry) :
    isDirNamed d (set_file_entry n ls e) = isDirNamed d e := by
  cases e with
  | subdir m cs => rfl
  | file m c => by_cases hm : m = n <;> simp [set_file_entry, hm, isDirNamed]

/-- Truncating a file preserves the entry's name. -/
theorem entryName_set_file_entry (n : String) (ls : List String) (e : TopEntry) :
    entryName (set_file_entry n ls e) = entryName e := by
  cases e with
  | subdir m cs => rfl
  | file m c => by_cases hm : m = n <;> simp [set_file_entry, hm, entryName]

/-- Truncating a file changes no directory. -/
theorem hasDir_set_file_lines (d n : String) (ls : List String) :
    ∀ es : List TopEntry, hasDir d (set_file_lines n ls es) = hasDir d es
  | [] => rfl
  | e :: es => by
      have ih := hasDir_set_file_lines d n ls es
      simp only [set_file_lines, hasDir, List.map_cons, List.any_cons] at ih ⊢
      rw [ih, isDirNamed_set_file_entry]

/-- Creating or truncating a playlist file changes no directory. -/
theorem hasDir_create_file (d n : String) (es : List TopEntry) :
    hasDir d (create_file_model n es) = hasDir d es := by
  unfold create_file_model
  split
  · exact hasDir_set_file_lines d n [] es
  · simp [hasDir, List.any_append, isDirNamed]

/-- Claim C5 as stated is false: a concealed-subfolder creation failure
other than "already exists" is silently discarded (line 91's result is
dropped), so the child is not aborted: the playlist is still created and
written, and the moves are attempted (each failing `NotFound`). -/
theorem C5_counterexample :
    organize_child "linux" "root"
        { benignEnv with mkdirFail := some "PermissionDenied" } "GameX"
        [.file "GameX.cue" []]
      = ⟨[.file "GameX.cue" [], .file "GameX.m3u" [".GameX/GameX.cue"]],
         [".GameX/GameX.cue"],
         [⟨"NotFound", "root/GameX/GameX.cue", "root/GameX/.GameX/GameX.cue"⟩],
         [], none⟩ := rfl

/-- Claim C5, amended: an "already exists" outcome of the concealed-dir
creation leaves the state unchanged whatever the injected error, and any
other creation failure is silently swallowed: the child's processing
continues, creating and writing the playlist in full while every media
move fails with `NotFound` and nothing is moved. -/
theorem C5_amended_mkdir_swallowed (os parent c cause : String) (env : ChildEnv)
    (es : List TopEntry)
    (hmk : env.mkdirFail = some cause)
    (hcp : env.createPlaylist = none) (hrd : env.readDirFail = none)
    (hex : existsNamed ("." ++ c) es = false)
    (hfd : hasDir (c ++ ".m3u") es = false) :
    (organize_child os parent env c es).panic = none
    ∧ (organize_child os parent env c es).moves = []
    ∧ (organize_child os parent env c es).lines =
        (((create_file_model (c ++ ".m3u") es).map entryName).filter
          (fun n => is_media_file (move_src os parent c n))).map (m3u_line os ("." ++ c))
    ∧ (organize_child os parent env c es).errors =
        (((create_file_model (c ++ ".m3u") es).map entryName).filter
          (fun n => is_media_file (move_src os parent c n))).map
          (fun n => ⟨"NotFound", move_src os parent c n, move_dest os parent c ("." ++ c) n⟩)
    ∧ ∀ (mf : Option String) (es' : List TopEntry), existsNamed ("." ++ c) es' = true →
        create_dir_model ("." ++ c) mf es' = es' := by
  have he1 : create_dir_model ("." ++ c) env.mkdirFail es = es := by
    rw [hmk]
    simp [create_dir_model, hex]
  have hd2 : hasDir ("." ++ c) (create_file_model (c ++ ".m3u") es) = false := by
    rw [hasDir_create_file]
    exact hasDir_false_of_existsNamed_false es hex
  have hfold := foldl_no_dir os parent c ("." ++ c) env
    ((create_file_model (c ++ ".m3u") es).map entryName)
    ⟨create_file_model (c ++ ".m3u") es, [], [], []⟩ hd2
  refine ⟨?_, ?_, ?_, ?_, fun mf es' h => by simp [create_dir_model, h]⟩ <;>
    simp only [organize_child, hcp, hrd, he1, hfd, Bool.false_eq_true, if_false, hfold] <;>
    simp

/-- Witness for C5: with a failing concealed-dir creation the child still
gets a fully written playlist and zero moves. -/
theorem C5_witness :
    (organize_child "linux" "root" { benignEnv with mkdirFail := some "ReadOnlyFs" } "GameX"
        [.file "GameX.cue" [], .file "cover.jpg" []]).moves = []
    ∧ (organize_child "linux" "root" { benignEnv with mkdirFail := some "ReadOnlyFs" } "GameX"
        [.file "GameX.cue" [], .file "cover.jpg" []]).lines = [".GameX/GameX.cue"] := by
  have h := C5_amended_mkdir_swallowed "linux" "root" "GameX" "ReadOnlyFs"
    { benignEnv with mkdirFail := some "ReadOnlyFs" }
    [.file "GameX.cue" [], .file "cover.jpg" []] rfl rfl rfl (by decide) (by decide)
  refine ⟨h.2.1, ?_⟩
  rw [h.2.2.1]
  rfl

/-- Claim C2 as stated is false: a failure to create child A's playlist
file hits `File::create(...).unwrap()` (line 104), which panics and
aborts the whole run; child B is left untouched and is never processed. -/
theorem C2_counterexample :
    run "linux" "root" true
        [("A", [.file "a.cue" []]), ("B", [.file "b.cue" []])]
        (fun n => if n = "A" then { benignEnv with createPlaylist := some "PermissionDenied" }
                  else benignEnv)
      = ⟨none,
         [("A", [.file "a.cue" [], .subdir ".A" []]), ("B", [.file "b.cue" []])],
         [], some "PermissionDenied"⟩ := rfl

/-- When no child's processing panics, the walk reaches every child. -/
theorem run_go_no_panic (os root : String) (envs : String → ChildEnv) :
    ∀ (children done : List (String × List TopEntry)) (reps : List (String × OrganizeOutcome)),
      (∀ p ∈ children, (organize_child os root (envs p.1) p.1 p.2).panic = none) →
      run_go os root envs children done reps =
        ⟨none,
         done ++ children.map (fun p => (p.1, (organize_child os root (envs p.1) p.1 p.2).entries)),
         reps ++ children.map (fun p => (p.1, organize_child os root (envs p.1) p.1 p.2)),
         none⟩
  | [], done, reps, _ => by simp [run_go]
  | (n, es) :: rest, done, reps, h => by
      have hn := h (n, es) (List.mem_cons_self _ _)
      simp only [run_go, hn]
      rw [run_go_no_panic os root envs rest (done ++ [(n, (organize_child os root (envs n) n es).entries)])
        (reps ++ [(n, organize_child os root (envs n) n es)])
        (fun p hp => h p (List.mem_cons_of_mem _ hp))]
      simp

/-- Claim C2, amended: failures whose results the source discards (the
root re-check, concealed-dir creation, playlist writes, per-file moves)
never abort the run, and when no child's playlist creation or directory
read fails the walk attempts and reports every discovered child; but a
playlist-creation or child-read failure panics, aborting the run and
skipping all later children. -/
theorem C2_amended_walk (os root : String) (children : List (String × List TopEntry))
    (envs : String → ChildEnv)
    (h : ∀ p ∈ children, (organize_child os root (envs p.1) p.1 p.2).panic = none) :
    run os root true children envs =
      ⟨none,
       children.map (fun p => (p.1, (organize_child os root (envs p.1) p.1 p.2).entries)),
       children.map (fun p => (p.1, organize_child os root (envs p.1) p.1 p.2)),
       none⟩ := by
  show run_go os root envs children [] [] = _
  rw [run_go_no_panic os root envs children [] [] h]
  simp

/-- Witness for C2 (the spec's isolation scenario): child A's move fails,
yet the run finishes without a panic and both children are reported. -/
theorem C2_witness :
    (run "linux" "root" true
        [("A", [.file "a.cue" []]), ("B", [.file "b.cue" []])]
        (fun n => if n = "A" then { benignEnv with renameFail := fun _ => some "Denied" }
                  else benignEnv)).panic = none
    ∧ (run "linux" "root" true
        [("A", [.file "a.cue" []]), ("B", [.file "b.cue" []])]
        (fun n => if n = "A" then { benignEnv with renameFail := fun _ => some "Denied" }
                  else benignEnv)).reports.map (fun p => p.1) = ["A", "B"] := by
  have h := C2_amended_walk "linux" "root"
    [("A", [.file "a.cue" []]), ("B", [.file "b.cue" []])]
    (fun n => if n = "A" then { benignEnv with renameFail := fun _ => some "Denied" }
              else benignEnv) (by decide)
  rw [h]
  exact ⟨rfl, rfl⟩

/-! List-surgery lemmas for the rename step. -/

/-- Looking up a name skips entries with other names. -/
theorem find_entry_append {n : String} (ks r : List TopEntry)
    (h : ∀ k ∈ ks, entryName k ≠ n) :
    find_entry n (ks ++ r) = find_entry n r := by
  induction ks with
  | nil => rfl
  | cons k ks ih =>
      have hk : entryName k ≠ n := h k (List.mem_cons_self _ _)
      show find_entry n (k :: (ks ++ r)) = _
      unfold find_entry
      rw [List.find?_cons_of_neg _ (by simp [hk])]
      exact ih (fun k' hk' => h k' (List.mem_cons_of_mem _ hk'))

/-- Looking up a name finds a matching head. -/
theorem find_entry_cons_self {n : String} {e : TopEntry} (r : List TopEntry)
    (h : entryName e = n) : find_entry n (e :: r) = some e := by
  unfold find_entry
  rw [List.find?_cons_of_pos _ (by simp [h])]

/-- Removing a name skips entries with other names. -/
theorem remove_entry_append {n : String} (ks r : List TopEntry)
    (h : ∀ k ∈ ks, entryName k ≠ n) :
    remove_entry n (ks ++ r) = ks ++ remove_entry n r := by
  induction ks with
  | nil => rfl
  | cons k ks ih =>
      have hk : entryName k ≠ n := h k (List.mem_cons_self _ _)
      show remove_entry n (k :: (ks ++ r)) = _
      rw [remove_entry, if_neg hk, ih (fun k' hk' => h k' (List.mem_cons_of_mem _ hk'))]
      rfl

/-- Removing a name removes a matching head. -/
theorem remove_entry_cons_self {n : String} {e : TopEntry} (r : List TopEntry)
    (h : entryName e = n) : remove_entry n (e :: r) = r := by
  rw [remove_entry, if_pos h]

/-- Overwrite-by-name inside the concealed directory is a plain append
when the incoming name is fresh. -/
theorem filter_ne_of_fresh (x : TopEntry) (cs : List TopEntry)
    (h : entryName x ∉ cs.map entryName) :
    cs.filter (fun y => entryName y != entryName x) = cs := by
  apply List.filter_eq_self.mpr
  intro y hy
  simp only [bne_iff_ne, ne_eq, decide_eq_true_eq]
  intro hEq
  exact h (hEq ▸ List.mem_map_of_mem entryName hy)

/-- Files are untouched by `add_into_entry`. -/
theorem add_into_entry_file {e : TopEntry} (d : String) (x : TopEntry)
    (h : isFileNode e = true) : add_into_entry d x e = e := by
  cases e with
  | subdir m cs => simp [isFileNode] at h
  | file m c => rfl

/-- A list of files is untouched by `add_into_dir`. -/
theorem add_into_dir_files (d : String) (x : TopEntry) :
    ∀ ks : List TopEntry, (∀ k ∈ ks, isFileNode k = true) → add_into_dir d x ks = ks
  | [], _ => rfl
  | k :: ks, h => by
      show add_into_entry d x k :: add_into_dir d x ks = _
      rw [add_into_entry_file d x (h k (List.mem_cons_self _ _)),
        add_into_dir_files d x ks (fun k' hk' => h k' (List.mem_cons_of_mem _ hk'))]

/-- `add_into_dir` distributes over append. -/
theorem add_into_dir_append (d : String) (x : TopEntry) (ks r : List TopEntry) :
    add_into_dir d x (ks ++ r) = add_into_dir d x ks ++ add_into_dir d x r := by
  simp [add_into_dir]

/-- Dropping a fresh entry into the concealed directory appends it. -/
theorem add_into_entry_subdir_self (d : String) (x : TopEntry) (cs : List TopEntry)
    (h : entryName x ∉ cs.map entryName) :
    add_into_entry d x (.subdir d cs) = .subdir d (cs ++ [x]) := by
  simp [add_into_entry, filter_ne_of_fresh x cs h]

/-- The concealed directory is visible in the canonical entry shape. -/
theorem hasDir_shape (hidden m3u : String) (kept rest hcont : List TopEntry)
    (lns : List String) :
    hasDir hidden (kept ++ rest ++ [.subdir hidden hcont] ++ [.file m3u lns]) = true := by
  simp [hasDir, List.any_append, isDirNamed]

/-- One successful move in the canonical entry shape: the media entry
leaves the top level and is appended inside the concealed directory. -/
theorem process_file_benign_step (os parent c hidden m3u : String) (env : ChildEnv)
    (e : TopEntry) (kept rest hcont : List TopEntry) (lns ls : List String)
    (errs : List MoveError) (mvs : List (String × String))
    (hrf : env.renameFail (entryName e) = none)
    (hm : is_media_file (move_src os parent c (entryName e)) = true)
    (hkept : ∀ k ∈ kept, entryName k ≠ entryName e)
    (hkfile : ∀ k ∈ kept, isFileNode k = true)
    (hrfile : ∀ k ∈ rest, isFileNode k = true)
    (hneh : entryName e ≠ hidden)
    (hfresh : entryName e ∉ hcont.map entryName) :
    process_file os parent c hidden env
        ⟨kept ++ (e :: rest) ++ [.subdir hidden hcont] ++ [.file m3u lns], ls, errs, mvs⟩
        (entryName e)
      = ⟨kept ++ rest ++ [.subdir hidden (hcont ++ [e])] ++ [.file m3u lns],
         ls ++ [m3u_line os hidden (entryName e)], errs,
         mvs ++ [(move_src os parent c (entryName e),
                  move_dest os parent c hidden (entryName e))]⟩ := by
  have hentries : kept ++ (e :: rest) ++ [TopEntry.subdir hidden hcont] ++ [TopEntry.file m3u lns]
      = kept ++ (e :: (rest ++ ([TopEntry.subdir hidden hcont] ++ [TopEntry.file m3u lns]))) := by
    simp [List.append_assoc]
  have hd := hasDir_shape hidden m3u kept (e :: rest) hcont lns
  have hfind : find_entry (entryName e)
      (kept ++ (e :: rest) ++ [TopEntry.subdir hidden hcont] ++ [TopEntry.file m3u lns])
      = some e := by
    rw [hentries, find_entry_append kept _ hkept, find_entry_cons_self _ rfl]
  have hrem : remove_entry (entryName e)
      (kept ++ (e :: rest) ++ [TopEntry.subdir hidden hcont] ++ [TopEntry.file m3u lns])
      = kept ++ (rest ++ ([TopEntry.subdir hidden hcont] ++ [TopEntry.file m3u lns])) := by
    rw [hentries, remove_entry_append kept _ hkept, remove_entry_cons_self _ rfl]
  have hadd : add_into_dir hidden e
      (kept ++ (rest ++ ([TopEntry.subdir hidden hcont] ++ [TopEntry.file m3u lns])))
      = kept ++ rest ++ [TopEntry.subdir hidden (hcont ++ [e])] ++ [TopEntry.file m3u lns] := by
    rw [add_into_dir_append, add_into_dir_append, add_into_dir_append,
      add_into_dir_files hidden e kept hkfile, add_into_dir_files hidden e rest hrfile]
    show kept ++ (rest ++ ([add_into_entry hidden e (TopEntry.subdir hidden hcont)]
      ++ [add_into_entry hidden e (TopEntry.file m3u lns)])) = _
    rw [add_into_entry_subdir_self hidden e hcont hfresh]
    simp [add_into_entry, List.append_assoc]
  simp only [process_file, hm, Bool.true_eq_false, if_false, rename_file, hd, hneh, hrf,
    hfind, hrem, hadd]

/-- The per-file loop under an all-success environment, in the canonical
entry shape: media entries move into the concealed directory in order,
non-media entries stay put, one line per media entry, no errors. -/
theorem foldl_benign (os parent c hidden m3u : String) (env : ChildEnv)
    (henv : ∀ n, env.renameFail n = none) :
    ∀ (rest kept hcont : List TopEntry) (lns ls : List String)
      (errs : List MoveError) (mvs : List (String × String)),
      (∀ k ∈ kept, isFileNode k = true) →
      (∀ e ∈ rest, isFileNode e = true) →
      (∀ e ∈ rest, ∀ k ∈ kept, entryName k ≠ entryName e) →
      (∀ e ∈ rest, entryName e ≠ hidden) →
      (∀ e ∈ rest, entryName e ∉ hcont.map entryName) →
      (rest.map entryName).Nodup →
      (rest.map entryName).foldl (process_file os parent c hidden env)
          ⟨kept ++ rest ++ [.subdir hidden hcont] ++ [.file m3u lns], ls, errs, mvs⟩
        = ⟨kept ++ rest.filter (fun e => !is_media_file (move_src os parent c (entryName e)))
             ++ [.subdir hidden (hcont ++ rest.filter
                  (fun e => is_media_file (move_src os parent c (entryName e))))]
             ++ [.file m3u lns],
           ls ++ (rest.filter (fun e => is_media_file (move_src os parent c (entryName e)))).map
             (fun e => m3u_line os hidden (entryName e)),
           errs,
           mvs ++ (rest.filter (fun e => is_media_file (move_src os parent c (entryName e)))).map
             (fun e => (move_src os parent c (entryName e),
                        move_dest os parent c hidden (entryName e)))⟩
  | [], kept, hcont, lns, ls, errs, mvs, _, _, _, _, _, _ => by simp
  | e :: rest, kept, hcont, lns, ls, errs, mvs, hkf, hrfile, hdisj, hneh, hfresh, hnd => by
      rw [List.map_cons, List.foldl_cons]
      have hnd' : (rest.map entryName).Nodup := by
        rw [List.map_cons, List.nodup_cons] at hnd
        exact hnd.2
      have hhead : entryName e ∉ rest.map entryName := by
        rw [List.map_cons, List.nodup_cons] at hnd
        exact hnd.1
      by_cases hm : is_media_file (move_src os parent c (entryName e)) = true
      · have hstep := process_file_benign_step os parent c hidden m3u env e kept rest hcont
          lns ls errs mvs (henv _) hm
          (fun k hk => hdisj e (List.mem_cons_self _ _) k hk) hkf
          (fun k hk => hrfile k (List.mem_cons_of_mem _ hk))
          (hneh e (List.mem_cons_self _ _)) (hfresh e (List.mem_cons_self _ _))
        rw [hstep]
        rw [foldl_benign os parent c hidden m3u env henv rest kept (hcont ++ [e]) lns
          (ls ++ [m3u_line os hidden (entryName e)]) errs
          (mvs ++ [(move_src os parent c (entryName e),
                    move_dest os parent c hidden (entryName e))])
          hkf (fun k hk => hrfile k (List.mem_cons_of_mem _ hk))
          (fun x hx k hk => hdisj x (List.mem_cons_of_mem _ hx) k hk)
          (fun x hx => hneh x (List.mem_cons_of_mem _ hx))
          (fun x hx => by
            rw [List.map_append, List.mem_append]
            rintro (h1 | h1)
            · exact hfresh x (List.mem_cons_of_mem _ hx) h1
            · simp only [List.map_cons, List.map_nil, List.mem_singleton] at h1
              exact hhead (h1 ▸ List.mem_map_of_mem entryName hx))
          hnd']
        simp [List.filter_cons, hm, List.append_assoc]
      · have hm' : is_media_file (move_src os parent c (entryName e)) = false :=
          Bool.not_eq_true _ ▸ eq_false_of_ne_true hm
        rw [process_file_of_not_media os parent c hidden env _ _ hm']
        have hre : kept ++ (e :: rest) ++ [TopEntry.subdir hidden hcont]
            ++ [TopEntry.file m3u lns]
            = (kept ++ [e]) ++ rest ++ [TopEntry.subdir hidden hcont]
              ++ [TopEntry.file m3u lns] := by
          simp
        rw [hre]
        rw [foldl_benign os parent c hidden m3u env henv rest (kept ++ [e]) hcont lns ls errs mvs
          (by
            intro k hk
            rcases List.mem_append.mp hk with h1 | h1
            · exact hkf k h1
            · rw [List.mem_singleton] at h1
              exact h1 ▸ hrfile e (List.mem_cons_self _ _))
          (fun k hk => hrfile k (List.mem_cons_of_mem _ hk))
          (by
            intro x hx k hk
            rcases List.mem_append.mp hk with h1 | h1
            · exact hdisj x (List.mem_cons_of_mem _ hx) k h1
            · rw [List.mem_singleton] at h1
              subst h1
              intro hEq
              exact hhead (hEq ▸ List.mem_map_of_mem entryName hx))
          (fun x hx => hneh x (List.mem_cons_of_mem _ hx))
          (fun x hx => hfresh x (List.mem_cons_of_mem _ hx))
          hnd']
        simp [List.filter_cons, hm', List.append_assoc]

/-- `existsNamed` is the decidable form of "some entry has this name". -/
theorem existsNamed_eq_false {n : String} {es : List TopEntry} :
    existsNamed n es = false ↔ ∀ e ∈ es, entryName e ≠ n := by
  simp [existsNamed, List.any_eq_false]

/-- A list of plain files holds no directory. -/
theorem hasDir_false_of_files {d : String} {es : List TopEntry}
    (h : ∀ e ∈ es, isFileNode e = true) : hasDir d es = false := by
  simp only [hasDir, List.any_eq_false]
  intro e he
  cases e with
  | subdir m cs => simpa [isFileNode] using h _ he
  | file m c => simp [isDirNamed]

/-- Entries with other names are untouched by `set_file_entry`. -/
theorem set_file_entry_of_ne {n : String} {e : TopEntry} (ls : List String)
    (h : entryName e ≠ n) : set_file_entry n ls e = e := by
  cases e with
  | subdir m cs => rfl
  | file m c => simp [set_file_entry, entryName] at h ⊢; simp [h]

/-- `set_file_lines` distributes over append. -/
theorem set_file_lines_append (n : String) (ls : List String) (ks r : List TopEntry) :
    set_file_lines n ls (ks ++ r) = set_file_lines n ls ks ++ set_file_lines n ls r := by
  simp [set_file_lines]

/-- A list without the target name is untouched by `set_file_lines`. -/
theorem set_file_lines_of_no_name {n : String} (ls : List String) :
    ∀ es : List TopEntry, (∀ e ∈ es, entryName e ≠ n) → set_file_lines n ls es = es
  | [], _ => rfl
  | e :: es, h => by
      show set_file_entry n ls e :: set_file_lines n ls es = _
      rw [set_file_entry_of_ne ls (h e (List.mem_cons_self _ _)),
        set_file_lines_of_no_name ls es (fun x hx => h x (List.mem_cons_of_mem _ hx))]

/-- The concealed directory's name is never the playlist file's name
(their lengths differ by three). -/
theorem hidden_ne_m3u (c : String) : "." ++ c ≠ c ++ ".m3u" := by
  intro h
  have hl := congrArg String.length h
  rw [String.length_append, String.length_append] at hl
  have h1 : String.length "." = 1 := rfl
  have h2 : String.length ".m3u" = 4 := rfl
  omega

/-- Characterization of one benign run on a child of distinctly named
plain files: media files move into the fresh concealed directory in
order, non-media files stay, the playlist lists exactly the media files. -/
theorem organize_child_benign (os parent c : String) (es : List TopEntry)
    (hfile : ∀ e ∈ es, isFileNode e = true)
    (hnd : (es.map entryName).Nodup)
    (hnh : ∀ e ∈ es, entryName e ≠ "." ++ c)
    (hnm : ∀ e ∈ es, entryName e ≠ c ++ ".m3u")
    (hmh : is_media_file (move_src os parent c ("." ++ c)) = false)
    (hmm : is_media_file (move_src os parent c (c ++ ".m3u")) = false) :
    organize_child os parent benignEnv c es
      = ⟨es.filter (fun e => !is_media_file (move_src os parent c (entryName e)))
           ++ [.subdir ("." ++ c)
                (es.filter (fun e => is_media_file (move_src os parent c (entryName e))))]
           ++ [.file (c ++ ".m3u")
                ((es.filter (fun e => is_media_file (move_src os parent c (entryName e)))).map
                  (fun e => m3u_line os ("." ++ c) (entryName e)))],
         (es.filter (fun e => is_media_file (move_src os parent c (entryName e)))).map
           (fun e => m3u_line os ("." ++ c) (entryName e)),
         [],
         (es.filter (fun e => is_media_file (move_src os parent c (entryName e)))).map
           (fun e => (move_src os parent c (entryName e),
                      move_dest os parent c ("." ++ c) (entryName e))),
         none⟩ := by
  have hex : existsNamed ("." ++ c) es = false := existsNamed_eq_false.mpr hnh
  have he1 : create_dir_model ("." ++ c) (none : Option String) es
      = es ++ [.subdir ("." ++ c) []] := by
    simp [create_dir_model, hex]
  have hfd : hasDir (c ++ ".m3u") (es ++ [TopEntry.subdir ("." ++ c) []]) = false := by
    simp only [hasDir, List.any_append, Bool.or_eq_false_iff]
    refine ⟨hasDir_false_of_files hfile, ?_⟩
    simp [isDirNamed, hidden_ne_m3u c]
  have hex2 : existsNamed (c ++ ".m3u") (es ++ [TopEntry.subdir ("." ++ c) []]) = false := by
    apply existsNamed_eq_false.mpr
    intro e he
    rcases List.mem_append.mp he with h1 | h1
    · exact hnm e h1
    · rw [List.mem_singleton] at h1
      subst h1
      exact hidden_ne_m3u c
  have he2 : create_file_model (c ++ ".m3u") (es ++ [TopEntry.subdir ("." ++ c) []])
      = es ++ [TopEntry.subdir ("." ++ c) []] ++ [TopEntry.file (c ++ ".m3u") []] := by
    simp [create_file_model, hex2]
  have hshape : es ++ [TopEntry.subdir ("." ++ c) []] ++ [TopEntry.file (c ++ ".m3u") []]
      = ([] : List TopEntry) ++ es ++ [TopEntry.subdir ("." ++ c) []]
        ++ [TopEntry.file (c ++ ".m3u") []] := by
    simp
  have hfold := foldl_benign os parent c ("." ++ c) (c ++ ".m3u") benignEnv (fun _ => rfl)
    es [] [] [] [] [] []
    (by intro k hk; cases hk)
    hfile
    (by intro e _ k hk; cases hk)
    hnh
    (by intro e _ h; cases h)
    hnd
  simp only [organize_child, show benignEnv.createPlaylist = none from rfl,
    show benignEnv.readDirFail = none from rfl, show benignEnv.mkdirFail = none from rfl,
    he1, hfd, Bool.false_eq_true, if_false, he2]
  rw [List.map_append, List.map_append, List.foldl_append, List.foldl_append]
  simp only [List.map_cons, List.map_nil, entryName]
  rw [show (es ++ [TopEntry.subdir ("." ++ c) []] ++ [TopEntry.file (c ++ ".m3u") []])
      = ([] : List TopEntry) ++ es ++ [TopEntry.subdir ("." ++ c) []]
        ++ [TopEntry.file (c ++ ".m3u") []] from by simp, hfold]
  rw [List.foldl_cons, List.foldl_nil, List.foldl_cons, List.foldl_nil,
    process_file_of_not_media os parent c ("." ++ c) benignEnv _ _ hmh,
    process_file_of_not_media os parent c ("." ++ c) benignEnv _ _ hmm]
  have hAnm : ∀ e ∈ es.filter (fun e => !is_media_file (move_src os parent c (entryName e))),
      entryName e ≠ c ++ ".m3u" := fun e he => hnm e (List.mem_of_mem_filter he)
  simp only [List.nil_append]
  rw [set_file_lines_append, set_file_lines_append,
    set_file_lines_of_no_name _ _ hAnm,
    set_file_lines_of_no_name _ _ (by
      intro e he
      rw [List.mem_singleton] at he
      subst he
      exact hidden_ne_m3u c)]
  simp only [set_file_lines, set_file_entry, List.map_cons, List.map_nil, if_pos,
    List.append_assoc, List.cons_append, List.nil_append]
  rfl

/-- Truncating a file does not change the entry names. -/
theorem map_entryName_set_file_lines (n : String) (ls : List String) (es : List TopEntry) :
    (set_file_lines n ls es).map entryName = es.map entryName := by
  unfold set_file_lines
  rw [List.map_map]
  exact List.map_congr_left (fun e _ => entryName_set_file_entry n ls e)

/-- Truncating the same file twice is the same as truncating it once. -/
theorem set_file_lines_idem (n : String) (ls : List String) (es : List TopEntry) :
    set_file_lines n ls (set_file_lines n ls es) = set_file_lines n ls es := by
  unfold set_file_lines
  rw [List.map_map]
  apply List.map_congr_left
  intro e _
  show set_file_entry n ls (set_file_entry n ls e) = set_file_entry n ls e
  cases e with
  | subdir m cs => rfl
  | file m c =>
      by_cases hm : m = n <;> simp [set_file_entry, hm]

/-- A benign run on a child with no media entry, an existing concealed
directory and an existing playlist file does exactly one thing: it
truncates the playlist file.  This is the state a second run sees. -/
theorem organize_child_no_media_run (os parent c : String) (es : List TopEntry)
    (hnomedia : ∀ e ∈ es, is_media_file (move_src os parent c (entryName e)) = false)
    (hexh : existsNamed ("." ++ c) es = true)
    (hfd : hasDir (c ++ ".m3u") es = false)
    (hexm : existsNamed (c ++ ".m3u") es = true) :
    organize_child os parent benignEnv c es
      = ⟨set_file_lines (c ++ ".m3u") [] es, [], [], [], none⟩ := by
  have he1 : create_dir_model ("." ++ c) (none : Option String) es = es := by
    simp [create_dir_model, hexh]
  have he2 : create_file_model (c ++ ".m3u") es = set_file_lines (c ++ ".m3u") [] es := by
    simp [create_file_model, hexm]
  have hfold := foldl_of_no_media os parent c ("." ++ c) benignEnv
    ((set_file_lines (c ++ ".m3u") [] es).map entryName)
    ⟨set_file_lines (c ++ ".m3u") [] es, [], [], []⟩
    (by
      rw [map_entryName_set_file_lines]
      intro n hn
      obtain ⟨e, he, rfl⟩ := List.mem_map.mp hn
      exact hnomedia e he)
  simp only [organize_child, show benignEnv.createPlaylist = none from rfl,
    show benignEnv.readDirFail = none from rfl, show benignEnv.mkdirFail = none from rfl,
    he1, hfd, Bool.false_eq_true, if_false, he2, hfold]
  rw [set_file_lines_idem]

/-- Claim C3 as stated is false: after a first successful run the media
files live inside the concealed subfolder, so a second run — which
truncates the playlist and then enumerates only the child's top level —
leaves the playlist empty instead of equivalent to the first run's. -/
theorem C3_counterexample :
    (organize_child "linux" "root" benignEnv "GameX" [.file "GameX.cue" []]).lines
        = [".GameX/GameX.cue"]
    ∧ find_entry "GameX.m3u"
        (organize_child "linux" "root" benignEnv "GameX" [.file "GameX.cue" []]).entries
        = some (.file "GameX.m3u" [".GameX/GameX.cue"])
    ∧ (organize_child "linux" "root" benignEnv "GameX"
        (organize_child "linux" "root" benignEnv "GameX" [.file "GameX.cue" []]).entries).lines
        = []
    ∧ find_entry "GameX.m3u"
        (organize_child "linux" "root" benignEnv "GameX"
          (organize_child "linux" "root" benignEnv "GameX"
            [.file "GameX.cue" []]).entries).entries
        = some (.file "GameX.m3u" []) :=
  ⟨rfl, rfl, rfl, rfl⟩

/-- Claim C3, amended: a second benign run on the same child performs zero
additional moves, reports no errors, and keeps the concealed subfolder
with exactly the relocated media files; but instead of an equivalent
playlist it truncates the playlist file to empty, because the relocated
files are no longer direct children.  The second run's final state equals
the first run's with the playlist content emptied. -/
theorem C3_amended_second_run (os parent c : String) (es : List TopEntry)
    (hfile : ∀ e ∈ es, isFileNode e = true)
    (hnd : (es.map entryName).Nodup)
    (hnh : ∀ e ∈ es, entryName e ≠ "." ++ c)
    (hnm : ∀ e ∈ es, entryName e ≠ c ++ ".m3u")
    (hmh : is_media_file (move_src os parent c ("." ++ c)) = false)
    (hmm : is_media_file (move_src os parent c (c ++ ".m3u")) = false) :
    (organize_child os parent benignEnv c
        (organize_child os parent benignEnv c es).entries).moves = []
    ∧ (organize_child os parent benignEnv c
        (organize_child os parent benignEnv c es).entries).lines = []
    ∧ (organize_child os parent benignEnv c
        (organize_child os parent benignEnv c es).entries).errors = []
    ∧ (organize_child os parent benignEnv c
        (organize_child os parent benignEnv c es).entries).panic = none
    ∧ (organize_child os parent benignEnv c
        (organize_child os parent benignEnv c es).entries).entries
        = set_file_lines (c ++ ".m3u") [] (organize_child os parent benignEnv c es).entries
    ∧ find_entry ("." ++ c)
        (organize_child os parent benignEnv c
          (organize_child os parent benignEnv c es).entries).entries
        = some (.subdir ("." ++ c)
            (es.filter (fun e => is_media_file (move_src os parent c (entryName e)))))
    ∧ find_entry (c ++ ".m3u")
        (organize_child os parent benignEnv c
          (organize_child os parent benignEnv c es).entries).entries
        = some (.file (c ++ ".m3u") []) := by
  have h1 := organize_child_benign os parent c es hfile hnd hnh hnm hmh hmm
  have hE1 : (organize_child os parent benignEnv c es).entries
      = es.filter (fun e => !is_media_file (move_src os parent c (entryName e)))
        ++ [.subdir ("." ++ c)
             (es.filter (fun e => is_media_file (move_src os parent c (entryName e))))]
        ++ [.file (c ++ ".m3u")
             ((es.filter (fun e => is_media_file (move_src os parent c (entryName e)))).map
               (fun e => m3u_line os ("." ++ c) (entryName e)))] := by
    rw [h1]
  have hAfile : ∀ e ∈ es.filter (fun e => !is_media_file (move_src os parent c (entryName e))),
      isFileNode e = true := fun e he => hfile e (List.mem_of_mem_filter he)
  have hAmedia : ∀ e ∈ es.filter (fun e => !is_media_file (move_src os parent c (entryName e))),
      is_media_file (move_src os parent c (entryName e)) = false := by
    intro e he
    have := (List.mem_filter.mp he).2
    simpa using this
  have hAnh : ∀ e ∈ es.filter (fun e => !is_media_file (move_src os parent c (entryName e))),
      entryName e ≠ "." ++ c := fun e he => hnh e (List.mem_of_mem_filter he)
  have hAnm : ∀ e ∈ es.filter (fun e => !is_media_file (move_src os parent c (entryName e))),
      entryName e ≠ c ++ ".m3u" := fun e he => hnm e (List.mem_of_mem_filter he)
  have hy1 : ∀ e ∈ (organize_child os parent benignEnv c es).entries,
      is_media_file (move_src os parent c (entryName e)) = false := by
    rw [hE1]
    intro e he
    rcases List.mem_append.mp he with h2 | h2
    · rcases List.mem_append.mp h2 with h3 | h3
      · exact hAmedia e h3
      · rw [List.mem_singleton] at h3
        subst h3
        exact hmh
    · rw [List.mem_singleton] at h2
      subst h2
      exact hmm
  have hy2 : existsNamed ("." ++ c) (organize_child os parent benignEnv c es).entries = true := by
    rw [hE1]
    simp [existsNamed, List.any_append, entryName]
  have hy3 : hasDir (c ++ ".m3u") (organize_child os parent benignEnv c es).entries = false := by
    rw [hE1]
    simp only [hasDir, List.any_append, Bool.or_eq_false_iff]
    refine ⟨⟨hasDir_false_of_files hAfile, ?_⟩, by simp [isDirNamed]⟩
    simp [isDirNamed, hidden_ne_m3u c]
  have hy4 : existsNamed (c ++ ".m3u") (organize_child os parent benignEnv c es).entries = true := by
    rw [hE1]
    simp [existsNamed, List.any_append, entryName]
  have h2 := organize_child_no_media_run os parent c
    (organize_child os parent benignEnv c es).entries hy1 hy2 hy3 hy4
  have hsd : entryName (TopEntry.subdir ("." ++ c)
      (es.filter (fun e => is_media_file (move_src os parent c (entryName e))))) ≠ c ++ ".m3u" :=
    hidden_ne_m3u c
  have hset : set_file_lines (c ++ ".m3u") [] (organize_child os parent benignEnv c es).entries
      = es.filter (fun e => !is_media_file (move_src os parent c (entryName e)))
        ++ ([.subdir ("." ++ c)
              (es.filter (fun e => is_media_file (move_src os parent c (entryName e))))]
            ++ [.file (c ++ ".m3u") []]) := by
    rw [hE1, List.append_assoc, set_file_lines_append,
      set_file_lines_of_no_name _ _ hAnm]
    congr 1
    rw [set_file_lines_append, set_file_lines_of_no_name _ _ (by
      intro e he
      rw [List.mem_singleton] at he
      subst he
      exact hsd)]
    simp [set_file_lines, set_file_entry]
  refine ⟨by rw [h2], by rw [h2], by rw [h2], by rw [h2], by rw [h2], ?_, ?_⟩
  · rw [h2]
    show find_entry ("." ++ c) (set_file_lines (c ++ ".m3u") []
      (organize_child os parent benignEnv c es).entries) = _
    rw [hset, find_entry_append _ _ hAnh, List.singleton_append]
    unfold find_entry
    rw [List.find?_cons_of_pos _ (by simp [entryName])]
  · rw [h2]
    show find_entry (c ++ ".m3u") (set_file_lines (c ++ ".m3u") []
      (organize_child os parent benignEnv c es).entries) = _
    rw [hset, find_entry_append _ _ hAnm,
      find_entry_append [TopEntry.subdir ("." ++ c)
        (es.filter (fun e => is_media_file (move_src os parent c (entryName e))))] _ (by
        intro k hk
        rw [List.mem_singleton] at hk
        subst hk
        exact hsd)]
    unfold find_entry
    rw [List.find?_cons_of_pos _ (by simp [entryName])]

/-- Witness for C3 on the spec's end-to-end scenario child: the second
run moves nothing, and the playlist — two lines after the first run — is
left empty. -/
theorem C3_witness :
    (organize_child "linux" "root" benignEnv "GameX"
        (organize_child "linux" "root" benignEnv "GameX"
          [.file "GameX.cue" [], .file "GameX.bin" [], .file "cover.jpg" []]).entries).moves = []
    ∧ (organize_child "linux" "root" benignEnv "GameX"
        (organize_child "linux" "root" benignEnv "GameX"
          [.file "GameX.cue" [], .file "GameX.bin" [], .file "cover.jpg" []]).entries).lines
        = [] := by
  have h := C3_amended_second_run "linux" "root" "GameX"
    [.file "GameX.cue" [], .file "GameX.bin" [], .file "cover.jpg" []]
    (by decide) (by decide) (by decide) (by decide) (by decide) (by decide)
  exact ⟨h.1, h.2.1⟩

end M3ugen
